import Mathlib

/-!
Shallow embedding of the WeedGroove browser-game core
(src/src/pages/Index.tsx).  Pure data, operations as explicit
state-passing functions; JavaScript `Math.random()` draws are passed in
as explicit parameters whose codomain matches the source expression
(`Math.random() < 0.5` becomes a `Bool`, `Math.floor(Math.random()*3)`
becomes a `Fin 3`).  JS numbers used in the growth formula are modelled
as rationals; quantities, prices and counters are integers throughout
the source, so they are modelled as `Nat` / `Int`.
-/

/-- Genetics of a plant: three allele-pair tokens stored as strings
(`yield: // AA, Aa, aa`, `speed: // BB, Bb, bb`, `potency: // CC, Cc, cc`). -/
structure PlantGenetics where
  yield : String
  speed : String
  potency : String
deriving DecidableEq, Repr

/-- The numeric trait scores (phenotype) attached to an entity. -/
structure Traits where
  yield : Nat
  speed : Nat
  potency : Nat
deriving DecidableEq, Repr

/-- Plant lifecycle stage. -/
inductive Stage where
  | seed
  | sprout
  | vegetative
  | flowering
  | harvest
deriving DecidableEq, Repr

structure Plant where
  id : String
  name : String
  stage : Stage
  progress : ℚ
  genetics : PlantGenetics
  traits : Traits
  plantedAt : ℕ
deriving DecidableEq, Repr

structure BudItem where
  id : String
  name : String
  quantity : Nat
  genetics : PlantGenetics
  traits : Traits
  isResearched : Bool
  harvestedAt : ℕ
deriving DecidableEq, Repr

structure SeedItem where
  id : String
  name : String
  quantity : Nat
  genetics : PlantGenetics
  traits : Traits
  isKnownGenetics : Bool
  createdAt : ℕ
deriving DecidableEq, Repr

structure StoreStrain where
  name : String
  price : Nat
  genetics : PlantGenetics
  traits : Traits
  description : String
deriving DecidableEq, Repr

structure GameStats where
  money : Int
  totalHarvested : Nat
  bestYield : Nat
  bestPotency : Nat
  experimentsCount : Nat
  crossbreedingAttempts : Nat
deriving DecidableEq, Repr

/-- The aggregate game state held by the component:
`plants`, `buds`, `seeds`, `gameStats`, `gameTime` (ms). -/
structure GameState where
  plants : List Plant
  buds : List BudItem
  seeds : List SeedItem
  gameStats : GameStats
  gameTime : ℕ
deriving DecidableEq, Repr

/-- Initial `gameStats` state. -/
def initialStats : GameStats :=
  { money := 1000, totalHarvested := 0, bestYield := 0, bestPotency := 0,
    experimentsCount := 0, crossbreedingAttempts := 0 }

/-- Initial component state; `now` is the `Date.now()` value at mount. -/
def initState (now : ℕ) : GameState :=
  { plants := [], buds := [], seeds := [], gameStats := initialStats, gameTime := now }

/-- Catalog entry: OG Kush. -/
def ogKush : StoreStrain :=
  { name := "OG Kush", price := 100,
    genetics := { yield := "Aa", speed := "BB", potency := "AA" },
    traits := { yield := 6, speed := 9, potency := 9 },
    description := "Классический сорт с высокой крепостью" }

/-- Catalog entry: Lemon Haze. -/
def lemonHaze : StoreStrain :=
  { name := "Lemon Haze", price := 120,
    genetics := { yield := "AA", speed := "Aa", potency := "Bb" },
    traits := { yield := 8, speed := 6, potency := 5 },
    description := "Высокая урожайность, цитрусовый аромат" }

/-- Catalog entry: Northern Lights. -/
def northernLights : StoreStrain :=
  { name := "Northern Lights", price := 80,
    genetics := { yield := "Bb", speed := "AA", potency := "Aa" },
    traits := { yield := 4, speed := 10, potency := 7 },
    description := "Быстрорастущий, устойчивый сорт" }

/-- Catalog entry: White Widow. -/
def whiteWidow : StoreStrain :=
  { name := "White Widow", price := 150,
    genetics := { yield := "AA", speed := "Bb", potency := "AA" },
    traits := { yield := 9, speed := 5, potency := 8 },
    description := "Премиум сорт с отличным балансом" }

/-- Catalog entry: Blue Dream. -/
def blueDream : StoreStrain :=
  { name := "Blue Dream", price := 90,
    genetics := { yield := "Aa", speed := "Aa", potency := "Bb" },
    traits := { yield := 7, speed := 6, potency := 4 },
    description := "Сбалансированный гибрид для новичков" }

/-- Catalog entry: Gorilla Glue. -/
def gorillaGlue : StoreStrain :=
  { name := "Gorilla Glue", price := 200,
    genetics := { yield := "AA", speed := "aa", potency := "AA" },
    traits := { yield := 10, speed := 3, potency := 10 },
    description := "Максимальная урожайность и крепость" }

/-- The fixed store catalog `storeStrains`. -/
def storeStrains : List StoreStrain :=
  [ogKush, lemonHaze, northernLights, whiteWidow, blueDream, gorillaGlue]

/-- One `Math.floor(Math.random() * 3)` draw per trait, used by
`calculateTraits`. -/
structure TraitRolls where
  ry : Fin 3
  rs : Fin 3
  rp : Fin 3
deriving DecidableEq, Repr

/-- `calculateTraits`: sample a phenotype from a genotype.  Each trait
checks its own token pair and adds a fresh uniform draw in `0..2` to the
tier base (8, 5 or 2). -/
def calculateTraits (genetics : PlantGenetics) (r : TraitRolls) : Traits :=
  { yield :=
      if genetics.yield = "AA" then 8 + r.ry.val
      else if genetics.yield = "Aa" then 5 + r.ry.val
      else 2 + r.ry.val,
    speed :=
      if genetics.speed = "BB" then 8 + r.rs.val
      else if genetics.speed = "Bb" then 5 + r.rs.val
      else 2 + r.rs.val,
    potency :=
      if genetics.potency = "CC" then 8 + r.rp.val
      else if genetics.potency = "Cc" then 5 + r.rp.val
      else 2 + r.rp.val }

/-- `getTraitRange`: the declared closed interval for an allele token. -/
def getTraitRange (gene : String) : Nat × Nat :=
  if gene = "AA" ∨ gene = "BB" ∨ gene = "CC" then (8, 10)
  else if gene = "Aa" ∨ gene = "Bb" ∨ gene = "Cc" then (5, 7)
  else if gene = "aa" ∨ gene = "bb" ∨ gene = "cc" then (2, 4)
  else (1, 10)

/-- `charAt(0).toUpperCase() + slice(1)` on a word. -/
def capitalizeFirst (w : String) : String :=
  match w.data with
  | [] => ""
  | c :: cs => String.mk (c.toUpper :: cs)

/-- `generateHybridName`: first word of parent 1 and last word of
parent 2, lower-cased then re-capitalised. -/
def generateHybridName (parent1 parent2 : String) : String :=
  let words1 := parent1.toLower.splitOn " "
  let words2 := parent2.toLower.splitOn " "
  let firstPart := words1.headD ""
  let secondPart := words2.getLastD ""
  capitalizeFirst firstPart ++ " " ++ capitalizeFirst secondPart

/-- The mutation token tables `['AA','Aa','aa']` etc., indexed by
`Math.floor(Math.random() * 3)`. -/
def yieldMutation : Fin 3 → String
  | 0 => "AA"
  | 1 => "Aa"
  | 2 => "aa"

def speedMutation : Fin 3 → String
  | 0 => "BB"
  | 1 => "Bb"
  | 2 => "bb"

def potencyMutation : Fin 3 → String
  | 0 => "CC"
  | 1 => "Cc"
  | 2 => "cc"

/-- All random draws made by one `crossbreedSeeds` call: the three
50/50 parent picks, the three 10% mutation coins with their uniform
token indices, and the trait rolls for the offspring phenotype. -/
structure CrossRand where
  pickYield : Bool
  pickSpeed : Bool
  pickPotency : Bool
  mutYield : Bool
  mutSpeed : Bool
  mutPotency : Bool
  mutYieldIdx : Fin 3
  mutSpeedIdx : Fin 3
  mutPotencyIdx : Fin 3
  rolls : TraitRolls
deriving DecidableEq, Repr

/-- Offspring genotype: per locus, inherit from parent 1 or parent 2
(50/50), then with probability 0.1 replace by a uniformly drawn token. -/
def hybridGenetics (g1 g2 : PlantGenetics) (r : CrossRand) : PlantGenetics :=
  { yield :=
      if r.mutYield then yieldMutation r.mutYieldIdx
      else if r.pickYield then g1.yield else g2.yield,
    speed :=
      if r.mutSpeed then speedMutation r.mutSpeedIdx
      else if r.pickSpeed then g1.speed else g2.speed,
    potency :=
      if r.mutPotency then potencyMutation r.mutPotencyIdx
      else if r.pickPotency then g1.potency else g2.potency }

/-- `crossbreedSeeds`: guard on both selections and their (snapshot)
quantities, build the hybrid seed, decrement both parents by id and
drop empty stacks, append the hybrid, bump both counters.  `newId` is
the `Date.now().toString()` identifier of the new seed. -/
def crossbreedSeeds (s : GameState) (sel1 sel2 : Option SeedItem)
    (r : CrossRand) (newId : String) : GameState :=
  match sel1, sel2 with
  | some a, some b =>
    if a.quantity < 1 ∨ b.quantity < 1 then s
    else
      let hg := hybridGenetics a.genetics b.genetics r
      let newSeed : SeedItem :=
        { id := newId, name := generateHybridName a.name b.name, quantity := 1,
          genetics := hg, traits := calculateTraits hg r.rolls,
          isKnownGenetics := false, createdAt := s.gameTime }
      let consumed :=
        (s.seeds.map (fun d =>
          if d.id = a.id ∨ d.id = b.id then { d with quantity := d.quantity - 1 } else d)).filter
          (fun d => 0 < d.quantity)
      { s with
        seeds := consumed ++ [newSeed],
        gameStats :=
          { s.gameStats with
            crossbreedingAttempts := s.gameStats.crossbreedingAttempts + 1,
            experimentsCount := s.gameStats.experimentsCount + 1 } }
  | _, _ => s

/-- `buySeed`: reject if the balance does not cover the price, else
either increment an existing known stack with the same strain name or
append a fresh known-genetics seed, and debit the price. -/
def buySeed (s : GameState) (strain : StoreStrain) (newId : String) : GameState :=
  if s.gameStats.money < (strain.price : Int) then s
  else
    let newSeed : SeedItem :=
      { id := newId, name := strain.name, quantity := 1, genetics := strain.genetics,
        traits := strain.traits, isKnownGenetics := true, createdAt := s.gameTime }
    let seeds' :=
      match s.seeds.find? (fun d => d.name == strain.name && d.isKnownGenetics) with
      | some existing =>
          s.seeds.map (fun d =>
            if d.id = existing.id then { d with quantity := d.quantity + 1 } else d)
      | none => s.seeds ++ [newSeed]
    { s with seeds := seeds',
             gameStats := { s.gameStats with money := s.gameStats.money - strain.price } }

/-- `plantSeed`: look the seed up by id, reject if absent or empty,
else append a fresh stage-`seed` plant with progress 0 planted at the
current game time, decrement the stack and drop it at zero. -/
def plantSeed (s : GameState) (seedId newId : String) : GameState :=
  match s.seeds.find? (fun d => d.id == seedId) with
  | none => s
  | some seed =>
    if seed.quantity < 1 then s
    else
      let newPlant : Plant :=
        { id := newId, name := seed.name, stage := Stage.seed, progress := 0,
          genetics := seed.genetics, traits := seed.traits, plantedAt := s.gameTime }
      { s with
        plants := s.plants ++ [newPlant],
        seeds :=
          (s.seeds.map (fun d =>
            if d.id = seedId then { d with quantity := d.quantity - 1 } else d)).filter
            (fun d => 0 < d.quantity) }

/-- `harvestPlant`: reject unless the plant exists and is in the
`harvest` stage; merge the yield into an existing unresearched bud
stack of the same name or append a fresh one, update the statistics,
remove the plant. -/
def harvestPlant (s : GameState) (plantId newId : String) : GameState :=
  match s.plants.find? (fun p => p.id == plantId) with
  | none => s
  | some plant =>
    if plant.stage ≠ Stage.harvest then s
    else
      let budItem : BudItem :=
        { id := newId, name := plant.name, quantity := plant.traits.yield,
          genetics := plant.genetics, traits := plant.traits,
          isResearched := false, harvestedAt := s.gameTime }
      let buds' :=
        match s.buds.find? (fun i => i.name == plant.name && !i.isResearched) with
        | some existing =>
            s.buds.map (fun i =>
              if i.id = existing.id then { i with quantity := i.quantity + plant.traits.yield } else i)
        | none => s.buds ++ [budItem]
      { s with
        buds := buds',
        gameStats :=
          { s.gameStats with
            totalHarvested := s.gameStats.totalHarvested + 1,
            bestYield := max s.gameStats.bestYield plant.traits.yield,
            bestPotency := max s.gameStats.bestPotency plant.traits.potency },
        plants := s.plants.filter (fun p => p.id != plantId) }

/-- `sellBuds`: researched items are worth `yield * potency * 10` per
unit, unresearched a flat 50 per unit; credit the total and remove the
item. -/
def sellBuds (s : GameState) (itemId : String) : GameState :=
  match s.buds.find? (fun i => i.id == itemId) with
  | none => s
  | some item =>
    let basePrice : Int :=
      if item.isResearched then (item.traits.yield : Int) * item.traits.potency * 10 else 50
    let totalValue : Int := basePrice * item.quantity
    { s with
      gameStats := { s.gameStats with money := s.gameStats.money + totalValue },
      buds := s.buds.filter (fun i => i.id != itemId) }

/-- `convertBudsToSeeds`: costs 100; the new seed stack holds half the
bud quantity (floor) and inherits the researched flag as genetics
visibility; the bud item is removed. -/
def convertBudsToSeeds (s : GameState) (itemId newId : String) : GameState :=
  match s.buds.find? (fun i => i.id == itemId) with
  | none => s
  | some item =>
    if s.gameStats.money < 100 then s
    else
      let newSeed : SeedItem :=
        { id := newId, name := item.name ++ " (семена)", quantity := item.quantity / 2,
          genetics := item.genetics, traits := item.traits,
          isKnownGenetics := item.isResearched, createdAt := s.gameTime }
      { s with
        seeds := s.seeds ++ [newSeed],
        buds := s.buds.filter (fun i => i.id != itemId),
        gameStats := { s.gameStats with money := s.gameStats.money - 100 } }

inductive LabType where
  | cheap
  | premium
deriving DecidableEq, Repr

/-- Research lab prices: cheap 100, premium 500. -/
def researchCost : LabType → Int
  | LabType.cheap => 100
  | LabType.premium => 500

/-- `researchBuds`: reject if absent or already researched or the
balance does not cover the lab cost; else flip the researched flag,
debit the cost and count the experiment. -/
def researchBuds (s : GameState) (itemId : String) (labType : LabType) : GameState :=
  match s.buds.find? (fun i => i.id == itemId) with
  | none => s
  | some item =>
    if item.isResearched then s
    else
      if s.gameStats.money < researchCost labType then s
      else
        { s with
          buds := s.buds.map (fun i =>
            if i.id = itemId then { i with isResearched := true } else i),
          gameStats :=
            { s.gameStats with
              money := s.gameStats.money - researchCost labType,
              experimentsCount := s.gameStats.experimentsCount + 1 } }

/-- `sleepHours`: advance the game clock by `hours * 60 * 60 * 1000` ms. -/
def sleepHours (s : GameState) (hours : ℕ) : GameState :=
  { s with gameTime := s.gameTime + hours * 60 * 60 * 1000 }

/-- The growth formula of the tick:
`min(100, ((gameTime - plantedAt)/1000/60) / (120 - speed*10) * 100)`. -/
def progressAt (gameTime plantedAt : ℚ) (speed : ℚ) : ℚ :=
  min 100 ((gameTime - plantedAt) / 1000 / 60 / (120 - speed * 10) * 100)

/-- The stage update of the tick: thresholds 80/60/30/10, otherwise the
previous stage is kept (there is no explicit `seed` branch in the
source). -/
def updateStage (newProgress : ℚ) (st : Stage) : Stage :=
  if newProgress ≥ 80 then Stage.harvest
  else if newProgress ≥ 60 then Stage.flowering
  else if newProgress ≥ 30 then Stage.vegetative
  else if newProgress ≥ 10 then Stage.sprout
  else st

/-- Per-plant body of the tick interval callback. -/
def tickPlant (gameTime : ℕ) (p : Plant) : Plant :=
  let newProgress := progressAt (gameTime : ℚ) (p.plantedAt : ℚ) (p.traits.speed : ℚ)
  { p with progress := newProgress, stage := updateStage newProgress p.stage }

/-- One firing of the interval: the clock advances by 60000 ms while the
plant update closure still reads the pre-increment `gameTime`. -/
def tickState (s : GameState) : GameState :=
  { s with
    gameTime := s.gameTime + 60000,
    plants := s.plants.map (tickPlant s.gameTime) }

/-- The persisted snapshot; every field may be missing in a loaded blob. -/
structure SaveBlob where
  plants : Option (List Plant)
  buds : Option (List BudItem)
  seeds : Option (List SeedItem)
  gameStats : Option GameStats
  gameTime : Option ℕ
deriving DecidableEq, Repr

/-- The save effect: serialize the full snapshot. -/
def saveGame (s : GameState) : SaveBlob :=
  { plants := some s.plants, buds := some s.buds, seeds := some s.seeds,
    gameStats := some s.gameStats, gameTime := some s.gameTime }

/-- The load effect: each field falls back (`||`) to its default when
missing; `gameTime` additionally falls back to `Date.now()` when the
stored value is the falsy number 0. -/
def loadGame (blob : SaveBlob) (fallbackStats : GameStats) (now : ℕ) : GameState :=
  { plants := blob.plants.getD [],
    buds := blob.buds.getD [],
    seeds := blob.seeds.getD [],
    gameStats := blob.gameStats.getD fallbackStats,
    gameTime :=
      match blob.gameTime with
      | none => now
      | some t => if t = 0 then now else t }

/-- One player- or timer-driven transition of the component state.  The
random draws and the fresh `Date.now()` identifiers are existentially
chosen by the environment; seed purchases come from the fixed catalog,
and crossbreeding acts on arbitrary UI selection snapshots. -/
inductive Step : GameState → GameState → Prop where
  | tick (s : GameState) : Step s (tickState s)
  | sleep (s : GameState) (hours : ℕ) : Step s (sleepHours s hours)
  | buy (s : GameState) (strain : StoreStrain) (hs : strain ∈ storeStrains)
      (newId : String) : Step s (buySeed s strain newId)
  | plant (s : GameState) (seedId newId : String) : Step s (plantSeed s seedId newId)
  | harvest (s : GameState) (plantId newId : String) : Step s (harvestPlant s plantId newId)
  | sell (s : GameState) (itemId : String) : Step s (sellBuds s itemId)
  | convert (s : GameState) (itemId newId : String) : Step s (convertBudsToSeeds s itemId newId)
  | research (s : GameState) (itemId : String) (lab : LabType) :
      Step s (researchBuds s itemId lab)
  | cross (s : GameState) (sel1 sel2 : Option SeedItem) (r : CrossRand) (newId : String) :
      Step s (crossbreedSeeds s sel1 sel2 r newId)

/-- A state reachable from a fresh session started at `Date.now() = now`. -/
def Reachable (now : ℕ) (s : GameState) : Prop :=
  Relation.ReflTransGen Step (initState now) s

/-! ### The pure stage function and the lifecycle order -/

/-- The spec's pure threshold classification of a progress value
("≥80 → harvest, ≥60 → flowering, ≥30 → vegetative, ≥10 → sprout, else
seed"), to be compared with the source's `updateStage`, which keeps the
previous stage below 10 instead of forcing `seed`. -/
def stagePure (q : ℚ) : Stage :=
  if q ≥ 80 then Stage.harvest
  else if q ≥ 60 then Stage.flowering
  else if q ≥ 30 then Stage.vegetative
  else if q ≥ 10 then Stage.sprout
  else Stage.seed

/-- Position of a stage in the lifecycle order
seed → sprout → vegetative → flowering → harvest. -/
def stageRank : Stage → Nat
  | Stage.seed => 0
  | Stage.sprout => 1
  | Stage.vegetative => 2
  | Stage.flowering => 3
  | Stage.harvest => 4

theorem updateStage_stagePure {q0 q1 : ℚ} (h : q0 ≤ q1) :
    updateStage q1 (stagePure q0) = stagePure q1 := by
  unfold updateStage stagePure
  split_ifs <;> first | rfl | linarith

theorem stageRank_stagePure_mono {q1 q2 : ℚ} (h : q1 ≤ q2) :
    stageRank (stagePure q1) ≤ stageRank (stagePure q2) := by
  unfold stagePure
  split_ifs <;> first | linarith | decide

/-! ### Growth-formula lemmas -/

theorem progressAt_le_100 (t pa sp : ℚ) : progressAt t pa sp ≤ 100 :=
  min_le_left _ _

theorem progressAt_mono {sp : ℚ} (hsp : sp ≤ 11) (pa : ℚ) {t1 t2 : ℚ} (h : t1 ≤ t2) :
    progressAt t1 pa sp ≤ progressAt t2 pa sp := by
  have hw : (0 : ℚ) < 120 - sp * 10 := by linarith
  unfold progressAt
  refine min_le_min le_rfl ?_
  have h2 : t1 - pa ≤ t2 - pa := by linarith
  gcongr

theorem progressAt_self (pa sp : ℚ) : progressAt pa pa sp = 0 := by
  unfold progressAt
  norm_num

/-! ### The reachability invariant -/

def SeedOk (d : SeedItem) : Prop :=
  1 ≤ d.quantity ∧ 2 ≤ d.traits.yield ∧ 1 ≤ d.traits.speed ∧ d.traits.speed ≤ 10

def BudOk (b : BudItem) : Prop :=
  2 ≤ b.quantity ∧ 2 ≤ b.traits.yield ∧ 1 ≤ b.traits.speed ∧ b.traits.speed ≤ 10

def PlantOk (g : ℕ) (p : Plant) : Prop :=
  2 ≤ p.traits.yield ∧ 1 ≤ p.traits.speed ∧ p.traits.speed ≤ 10 ∧
  p.stage = stagePure p.progress ∧
  p.progress ≤ progressAt (g : ℚ) (p.plantedAt : ℚ) (p.traits.speed : ℚ)

/-- The inductive invariant of reachable states: positive stack
quantities, trait bounds as produced by the catalog and by
`calculateTraits`, stages consistent with progress, progress below its
value at the current clock, and a non-negative balance. -/
def StateOk (s : GameState) : Prop :=
  (∀ p ∈ s.plants, PlantOk s.gameTime p) ∧
  (∀ d ∈ s.seeds, SeedOk d) ∧
  (∀ b ∈ s.buds, BudOk b) ∧
  0 ≤ s.gameStats.money

theorem calculateTraits_ok (g : PlantGenetics) (r : TraitRolls) :
    2 ≤ (calculateTraits g r).yield ∧ (calculateTraits g r).yield ≤ 10 ∧
    2 ≤ (calculateTraits g r).speed ∧ (calculateTraits g r).speed ≤ 10 ∧
    2 ≤ (calculateTraits g r).potency ∧ (calculateTraits g r).potency ≤ 10 := by
  obtain ⟨⟨ry, hry⟩, ⟨rs, hrs⟩, ⟨rp, hrp⟩⟩ := r
  refine ⟨?_, ?_, ?_, ?_, ?_, ?_⟩ <;>
    (unfold calculateTraits; dsimp only; split_ifs <;> omega)

theorem storeStrains_ok : ∀ st ∈ storeStrains,
    2 ≤ st.traits.yield ∧ 1 ≤ st.traits.speed ∧ st.traits.speed ≤ 10 := by
  decide

theorem stateOk_init (now : ℕ) : StateOk (initState now) := by
  refine ⟨?_, ?_, ?_, ?_⟩ <;> simp [initState, initialStats]

theorem stateOk_tickState {s : GameState} (h : StateOk s) : StateOk (tickState s) := by
  obtain ⟨hp, hs, hb, hm⟩ := h
  refine ⟨?_, hs, hb, hm⟩
  intro p hmem
  simp only [tickState, List.mem_map] at hmem
  obtain ⟨q, hq, rfl⟩ := hmem
  obtain ⟨hy, hs1, hs10, hstage, hprog⟩ := hp q hq
  have hsp11 : (q.traits.speed : ℚ) ≤ 11 := by
    have : (q.traits.speed : ℚ) ≤ 10 := by exact_mod_cast hs10
    linarith
  refine ⟨hy, hs1, hs10, ?_, ?_⟩
  · show (tickPlant s.gameTime q).stage = stagePure (tickPlant s.gameTime q).progress
    simp only [tickPlant]
    rw [hstage]
    exact updateStage_stagePure hprog
  · show (tickPlant s.gameTime q).progress ≤
      progressAt ((s.gameTime + 60000 : ℕ) : ℚ) ((tickPlant s.gameTime q).plantedAt : ℚ)
        ((tickPlant s.gameTime q).traits.speed : ℚ)
    simp only [tickPlant]
    apply progressAt_mono hsp11
    push_cast
    linarith

theorem stateOk_sleepHours {s : GameState} (hours : ℕ) (h : StateOk s) :
    StateOk (sleepHours s hours) := by
  obtain ⟨hp, hs, hb, hm⟩ := h
  refine ⟨?_, hs, hb, hm⟩
  intro p hmem
  simp only [sleepHours] at hmem ⊢
  obtain ⟨hy, hs1, hs10, hstage, hprog⟩ := hp p hmem
  have hsp11 : (p.traits.speed : ℚ) ≤ 11 := by
    have : (p.traits.speed : ℚ) ≤ 10 := by exact_mod_cast hs10
    linarith
  refine ⟨hy, hs1, hs10, hstage, le_trans hprog ?_⟩
  apply progressAt_mono hsp11
  push_cast
  have : (0 : ℚ) ≤ (hours : ℚ) * 60 * 60 * 1000 := by positivity
  linarith

theorem stateOk_buySeed {s : GameState} {strain : StoreStrain} {newId : String}
    (h : StateOk s) (hst : strain ∈ storeStrains) : StateOk (buySeed s strain newId) := by
  obtain ⟨hp, hs, hb, hm⟩ := h
  obtain ⟨hty, hts1, hts10⟩ := storeStrains_ok strain hst
  unfold buySeed
  split_ifs with hmoney
  · exact ⟨hp, hs, hb, hm⟩
  · refine ⟨hp, ?_, hb, ?_⟩
    · intro d hd
      rcases hfind : s.seeds.find? (fun d => d.name == strain.name && d.isKnownGenetics) with
        _ | existing
      · simp only [hfind, List.mem_append, List.mem_singleton] at hd
        rcases hd with hd | rfl
        · exact hs d hd
        · exact ⟨le_refl 1, hty, hts1, hts10⟩
      · simp only [hfind, List.mem_map] at hd
        obtain ⟨e, he, rfl⟩ := hd
        obtain ⟨hq, hy, h1, h10⟩ := hs e he
        split_ifs
        · exact ⟨by show 1 ≤ e.quantity + 1; omega, hy, h1, h10⟩
        · exact ⟨hq, hy, h1, h10⟩
    · simp only [Int.not_lt] at hmoney
      show 0 ≤ s.gameStats.money - (strain.price : Int)
      omega

theorem seedOk_consume {l : List SeedItem} (hl : ∀ d ∈ l, SeedOk d)
    (c : SeedItem → Prop) [DecidablePred c] :
    ∀ d ∈ (l.map (fun d => if c d then { d with quantity := d.quantity - 1 } else d)).filter
      (fun d => 0 < d.quantity), SeedOk d := by
  intro d hd
  simp only [List.mem_filter, List.mem_map, decide_eq_true_eq] at hd
  obtain ⟨⟨e, he, rfl⟩, hpos⟩ := hd
  obtain ⟨hq, hy, h1, h10⟩ := hl e he
  by_cases hc : c e
  · simp only [if_pos hc] at hpos ⊢
    exact ⟨hpos, hy, h1, h10⟩
  · simp only [if_neg hc] at hpos ⊢
    exact ⟨hpos, hy, h1, h10⟩

theorem stateOk_plantSeed {s : GameState} {seedId newId : String}
    (h : StateOk s) : StateOk (plantSeed s seedId newId) := by
  obtain ⟨hp, hs, hb, hm⟩ := h
  unfold plantSeed
  split
  · exact ⟨hp, hs, hb, hm⟩
  · rename_i seed hfind
    obtain ⟨hq, hy, h1, h10⟩ := hs seed (List.mem_of_find?_eq_some hfind)
    split_ifs with hlt
    · exact ⟨hp, hs, hb, hm⟩
    · refine ⟨?_, ?_, hb, hm⟩
      · intro p hp2
        simp only [List.mem_append, List.mem_singleton] at hp2
        rcases hp2 with hp2 | rfl
        · exact hp p hp2
        · refine ⟨hy, h1, h10, ?_, ?_⟩
          · show Stage.seed = stagePure 0
            unfold stagePure
            norm_num
          · show (0 : ℚ) ≤ progressAt (s.gameTime : ℚ) (s.gameTime : ℚ) (seed.traits.speed : ℚ)
            rw [progressAt_self]
      · exact seedOk_consume hs _

theorem stateOk_harvestPlant {s : GameState} {plantId newId : String}
    (h : StateOk s) : StateOk (harvestPlant s plantId newId) := by
  obtain ⟨hp, hs, hb, hm⟩ := h
  unfold harvestPlant
  split
  · exact ⟨hp, hs, hb, hm⟩
  · rename_i plant hfind
    obtain ⟨hy, h1, h10, _, _⟩ := hp plant (List.mem_of_find?_eq_some hfind)
    split_ifs with hstage
    · exact ⟨hp, hs, hb, hm⟩
    · refine ⟨?_, hs, ?_, hm⟩
      · intro p hp2
        simp only [List.mem_filter] at hp2
        exact hp p hp2.1
      · intro b hb2
        rcases hfind2 : s.buds.find? (fun i => i.name == plant.name && !i.isResearched) with
          _ | existing
        · simp only [hfind2, List.mem_append, List.mem_singleton] at hb2
          rcases hb2 with hb2 | rfl
          · exact hb b hb2
          · exact ⟨hy, hy, h1, h10⟩
        · simp only [hfind2, List.mem_map] at hb2
          obtain ⟨e, he, rfl⟩ := hb2
          obtain ⟨hq2, hy2, h12, h102⟩ := hb e he
          split_ifs
          · exact ⟨by show 2 ≤ e.quantity + plant.traits.yield; omega, hy2, h12, h102⟩
          · exact ⟨hq2, hy2, h12, h102⟩

theorem stateOk_sellBuds {s : GameState} {itemId : String}
    (h : StateOk s) : StateOk (sellBuds s itemId) := by
  obtain ⟨hp, hs, hb, hm⟩ := h
  unfold sellBuds
  split
  · exact ⟨hp, hs, hb, hm⟩
  · rename_i item hfind
    refine ⟨hp, hs, ?_, ?_⟩
    · intro b hb2
      simp only [List.mem_filter] at hb2
      exact hb b hb2.1
    · show 0 ≤ s.gameStats.money +
        (if item.isResearched then (item.traits.yield : Int) * item.traits.potency * 10 else 50) *
          item.quantity
      have hbp : 0 ≤ (if item.isResearched then
          (item.traits.yield : Int) * item.traits.potency * 10 else 50) := by
        split_ifs <;> positivity
      have := mul_nonneg hbp (show (0 : Int) ≤ item.quantity by positivity)
      linarith

theorem stateOk_convertBudsToSeeds {s : GameState} {itemId newId : String}
    (h : StateOk s) : StateOk (convertBudsToSeeds s itemId newId) := by
  obtain ⟨hp, hs, hb, hm⟩ := h
  unfold convertBudsToSeeds
  split
  · exact ⟨hp, hs, hb, hm⟩
  · rename_i item hfind
    obtain ⟨hq, hy, h1, h10⟩ := hb item (List.mem_of_find?_eq_some hfind)
    split_ifs with hmoney
    · exact ⟨hp, hs, hb, hm⟩
    · refine ⟨hp, ?_, ?_, ?_⟩
      · intro d hd
        simp only [List.mem_append, List.mem_singleton] at hd
        rcases hd with hd | rfl
        · exact hs d hd
        · exact ⟨by show 1 ≤ item.quantity / 2; omega, hy, h1, h10⟩
      · intro b hb2
        simp only [List.mem_filter] at hb2
        exact hb b hb2.1
      · simp only [Int.not_lt] at hmoney
        show 0 ≤ s.gameStats.money - 100
        omega

theorem stateOk_researchBuds {s : GameState} {itemId : String} {lab : LabType}
    (h : StateOk s) : StateOk (researchBuds s itemId lab) := by
  obtain ⟨hp, hs, hb, hm⟩ := h
  unfold researchBuds
  split
  · exact ⟨hp, hs, hb, hm⟩
  · rename_i item hfind
    split_ifs with hres hmoney
    · exact ⟨hp, hs, hb, hm⟩
    · exact ⟨hp, hs, hb, hm⟩
    · refine ⟨hp, hs, ?_, ?_⟩
      · intro b hb2
        simp only [List.mem_map] at hb2
        obtain ⟨e, he, rfl⟩ := hb2
        obtain ⟨hq2, hy2, h12, h102⟩ := hb e he
        split_ifs <;> exact ⟨hq2, hy2, h12, h102⟩
      · simp only [Int.not_lt] at hmoney
        show 0 ≤ s.gameStats.money - researchCost lab
        omega

theorem stateOk_crossbreedSeeds {s : GameState} {sel1 sel2 : Option SeedItem}
    {r : CrossRand} {newId : String}
    (h : StateOk s) : StateOk (crossbreedSeeds s sel1 sel2 r newId) := by
  obtain ⟨hp, hs, hb, hm⟩ := h
  unfold crossbreedSeeds
  split
  · rename_i a b
    split_ifs with hguard
    · exact ⟨hp, hs, hb, hm⟩
    · refine ⟨hp, ?_, hb, hm⟩
      intro d hd
      simp only [List.mem_append, List.mem_singleton] at hd
      rcases hd with hd | rfl
      · exact seedOk_consume hs _ d hd
      · obtain ⟨cy2, _, cs2, cs10, _, _⟩ :=
          calculateTraits_ok (hybridGenetics a.genetics b.genetics r) r.rolls
        exact ⟨le_refl 1, cy2, le_trans one_le_two cs2, cs10⟩
  · exact ⟨hp, hs, hb, hm⟩

/-- Every step of the game preserves the invariant. -/
theorem stateOk_step {s s2 : GameState} (h : StateOk s) (hstep : Step s s2) : StateOk s2 := by
  cases hstep with
  | tick => exact stateOk_tickState h
  | sleep hours => exact stateOk_sleepHours hours h
  | buy strain hst newId => exact stateOk_buySeed h hst
  | plant seedId newId => exact stateOk_plantSeed h
  | harvest plantId newId => exact stateOk_harvestPlant h
  | sell itemId => exact stateOk_sellBuds h
  | convert itemId newId => exact stateOk_convertBudsToSeeds h
  | research itemId lab => exact stateOk_researchBuds h
  | cross sel1 sel2 r newId => exact stateOk_crossbreedSeeds h

/-- The invariant holds in every reachable state. -/
theorem stateOk_reachable {now : ℕ} {s : GameState} (h : Reachable now s) : StateOk s := by
  induction h with
  | refl => exact stateOk_init now
  | tail _ hstep ih => exact stateOk_step ih hstep

/-! ### Clock monotonicity along steps -/

theorem gameTime_buySeed (s : GameState) (strain : StoreStrain) (newId : String) :
    (buySeed s strain newId).gameTime = s.gameTime := by
  unfold buySeed
  split_ifs <;> rfl

theorem gameTime_plantSeed (s : GameState) (seedId newId : String) :
    (plantSeed s seedId newId).gameTime = s.gameTime := by
  unfold plantSeed
  split
  · rfl
  · split_ifs <;> rfl

theorem gameTime_harvestPlant (s : GameState) (plantId newId : String) :
    (harvestPlant s plantId newId).gameTime = s.gameTime := by
  unfold harvestPlant
  split
  · rfl
  · split_ifs <;> rfl

theorem gameTime_sellBuds (s : GameState) (itemId : String) :
    (sellBuds s itemId).gameTime = s.gameTime := by
  unfold sellBuds
  split <;> rfl

theorem gameTime_convertBudsToSeeds (s : GameState) (itemId newId : String) :
    (convertBudsToSeeds s itemId newId).gameTime = s.gameTime := by
  unfold convertBudsToSeeds
  split
  · rfl
  · split_ifs <;> rfl

theorem gameTime_researchBuds (s : GameState) (itemId : String) (lab : LabType) :
    (researchBuds s itemId lab).gameTime = s.gameTime := by
  unfold researchBuds
  split
  · rfl
  · split_ifs <;> rfl

theorem gameTime_crossbreedSeeds (s : GameState) (sel1 sel2 : Option SeedItem)
    (r : CrossRand) (newId : String) :
    (crossbreedSeeds s sel1 sel2 r newId).gameTime = s.gameTime := by
  unfold crossbreedSeeds
  split
  · split_ifs <;> rfl
  · rfl

theorem step_gameTime_le {s s2 : GameState} (hstep : Step s s2) : s.gameTime ≤ s2.gameTime := by
  cases hstep with
  | tick => exact Nat.le_add_right _ _
  | sleep hours => exact Nat.le_add_right _ _
  | buy strain hst newId => rw [gameTime_buySeed]
  | plant seedId newId => rw [gameTime_plantSeed]
  | harvest plantId newId => rw [gameTime_harvestPlant]
  | sell itemId => rw [gameTime_sellBuds]
  | convert itemId newId => rw [gameTime_convertBudsToSeeds]
  | research itemId lab => rw [gameTime_researchBuds]
  | cross sel1 sel2 r newId => rw [gameTime_crossbreedSeeds]

theorem reachable_gameTime_le {now : ℕ} {s : GameState} (h : Reachable now s) :
    now ≤ s.gameTime := by
  induction h with
  | refl => exact le_refl _
  | tail _ hstep ih => exact le_trans ih (step_gameTime_le hstep)

/-! ### Claim theorems -/

/-- C1: in every reachable game state all seed and bud quantities are
at least 1, so after any operation (planting, crossbreeding, harvesting,
selling, seed-conversion) completes, no zero-quantity seed or bud stack
remains in the `seeds` or `buds` lists. -/
theorem reachable_no_zero_quantity_stacks {now : ℕ} {s : GameState} (h : Reachable now s) :
    (∀ d ∈ s.seeds, 1 ≤ d.quantity) ∧ (∀ b ∈ s.buds, 1 ≤ b.quantity) := by
  obtain ⟨_, hs, hb, _⟩ := stateOk_reachable h
  exact ⟨fun d hd => (hs d hd).1, fun b hb2 => le_trans one_le_two (hb b hb2).1⟩

theorem reachable_no_zero_quantity_stacks_witness :
    (∀ d ∈ (buySeed (initState 1) ogKush "s1").seeds, 1 ≤ d.quantity) ∧
    (∀ b ∈ (buySeed (initState 1) ogKush "s1").buds, 1 ≤ b.quantity) :=
  reachable_no_zero_quantity_stacks
    (Relation.ReflTransGen.single (Step.buy (initState 1) ogKush (by decide) "s1"))

/-- C10: the money balance is non-negative in every reachable game
state (it starts at 1000, debits are guarded, sales only add). -/
theorem reachable_money_nonneg {now : ℕ} {s : GameState} (h : Reachable now s) :
    0 ≤ s.gameStats.money :=
  (stateOk_reachable h).2.2.2

theorem reachable_money_nonneg_witness :
    0 ≤ (buySeed (initState 1) gorillaGlue "s1").gameStats.money :=
  reachable_money_nonneg
    (Relation.ReflTransGen.single (Step.buy (initState 1) gorillaGlue (by decide) "s1"))

/-- C3: serializing a reachable snapshot and deserializing it again
reproduces the identical state, for any fallback stats and clock
(missing fields would default, but a full save has every field and a
reachable clock is never the falsy 0 when the session started at a
positive `Date.now()`). -/
theorem load_save_roundtrip {now : ℕ} {s : GameState} (hpos : 0 < now)
    (h : Reachable now s) (fallbackStats : GameStats) (t : ℕ) :
    loadGame (saveGame s) fallbackStats t = s ∧
    loadGame { plants := none, buds := none, seeds := none, gameStats := none, gameTime := none }
        fallbackStats t =
      { plants := [], buds := [], seeds := [], gameStats := fallbackStats, gameTime := t } := by
  have hgt : now ≤ s.gameTime := reachable_gameTime_le h
  have hne : s.gameTime ≠ 0 := by omega
  exact ⟨by simp [loadGame, saveGame, hne], rfl⟩

theorem load_save_roundtrip_witness :
    (loadGame (saveGame (buySeed (initState 1) ogKush "s1")) initialStats 77 =
      buySeed (initState 1) ogKush "s1") ∧
    loadGame { plants := none, buds := none, seeds := none, gameStats := none, gameTime := none }
        initialStats 77 =
      { plants := [], buds := [], seeds := [], gameStats := initialStats, gameTime := 77 } :=
  load_save_roundtrip (by decide)
    (Relation.ReflTransGen.single (Step.buy (initState 1) ogKush (by decide) "s1"))
    initialStats 77

/-- C5: on every tick, each live plant's stage agrees with the pure
threshold function of its progress (≥80 harvest, ≥60 flowering, ≥30
vegetative, ≥10 sprout, else seed); the pure function is
order-preserving and maps 0 to seed, 45 to vegetative, 85 and 100 to
harvest.  (The source keeps the previous stage below 10 instead of an
explicit `seed` branch; on reachable states this coincides with the
pure function, since progress never decreases.) -/
theorem stage_is_pure_function_of_progress {now : ℕ} {s : GameState} (h : Reachable now s) :
    (∀ p ∈ s.plants, p.stage = stagePure p.progress) ∧
    (∀ p ∈ (tickState s).plants, p.stage = stagePure p.progress) ∧
    stagePure 0 = Stage.seed ∧ stagePure 45 = Stage.vegetative ∧
    stagePure 85 = Stage.harvest ∧ stagePure 100 = Stage.harvest ∧
    ∀ q1 q2 : ℚ, q1 ≤ q2 → stageRank (stagePure q1) ≤ stageRank (stagePure q2) := by
  have h2 : Reachable now (tickState s) := Relation.ReflTransGen.tail h (Step.tick s)
  refine ⟨fun p hp => ((stateOk_reachable h).1 p hp).2.2.2.1,
          fun p hp => ((stateOk_reachable h2).1 p hp).2.2.2.1, ?_, ?_, ?_, ?_,
          fun q1 q2 hq => stageRank_stagePure_mono hq⟩ <;>
    norm_num [stagePure]

theorem stage_is_pure_function_of_progress_witness :
    (∀ p ∈ (plantSeed (buySeed (initState 1) ogKush "s1") "s1" "p1").plants,
      p.stage = stagePure p.progress) ∧
    (∀ p ∈ (tickState (plantSeed (buySeed (initState 1) ogKush "s1") "s1" "p1")).plants,
      p.stage = stagePure p.progress) ∧
    stagePure 0 = Stage.seed ∧ stagePure 45 = Stage.vegetative ∧
    stagePure 85 = Stage.harvest ∧ stagePure 100 = Stage.harvest ∧
    ∀ q1 q2 : ℚ, q1 ≤ q2 → stageRank (stagePure q1) ≤ stageRank (stagePure q2) :=
  stage_is_pure_function_of_progress
    (Relation.ReflTransGen.tail
      (Relation.ReflTransGen.single (Step.buy (initState 1) ogKush (by decide) "s1"))
      (Step.plant (buySeed (initState 1) ogKush "s1") "s1" "p1"))

/-- C6: for every plant in a reachable state (whose speed trait lies in
[1,10]), growth progress is monotonically non-decreasing in elapsed
game time and saturates at 100, and across consecutive ticks at
non-decreasing clock values the lifecycle stage never regresses. -/
theorem progress_monotone_and_stage_never_regresses {now : ℕ} {s : GameState}
    (h : Reachable now s) {p : Plant} (hp : p ∈ s.plants) :
    (∀ t1 t2 : ℚ, t1 ≤ t2 →
      progressAt t1 (p.plantedAt : ℚ) (p.traits.speed : ℚ) ≤
        progressAt t2 (p.plantedAt : ℚ) (p.traits.speed : ℚ)) ∧
    (∀ t : ℚ, progressAt t (p.plantedAt : ℚ) (p.traits.speed : ℚ) ≤ 100) ∧
    (1 ≤ p.traits.speed ∧ p.traits.speed ≤ 10) ∧
    ∀ g1 g2 : ℕ, s.gameTime ≤ g1 → g1 ≤ g2 →
      stageRank (tickPlant g1 p).stage ≤ stageRank (tickPlant g2 (tickPlant g1 p)).stage := by
  obtain ⟨hy, h1, h10, hstage, hprog⟩ := (stateOk_reachable h).1 p hp
  have hsp11 : (p.traits.speed : ℚ) ≤ 11 := by
    have : (p.traits.speed : ℚ) ≤ 10 := by exact_mod_cast h10
    linarith
  refine ⟨fun t1 t2 ht => progressAt_mono hsp11 _ ht,
          fun t => progressAt_le_100 _ _ _, ⟨h1, h10⟩, ?_⟩
  intro g1 g2 hg1 hg2
  have hq0 : p.progress ≤ progressAt (g1 : ℚ) (p.plantedAt : ℚ) (p.traits.speed : ℚ) :=
    le_trans hprog (progressAt_mono hsp11 _ (by exact_mod_cast hg1))
  have hq12 : progressAt (g1 : ℚ) (p.plantedAt : ℚ) (p.traits.speed : ℚ) ≤
      progressAt (g2 : ℚ) (p.plantedAt : ℚ) (p.traits.speed : ℚ) :=
    progressAt_mono hsp11 _ (by exact_mod_cast hg2)
  have hs1 : (tickPlant g1 p).stage =
      stagePure (progressAt (g1 : ℚ) (p.plantedAt : ℚ) (p.traits.speed : ℚ)) := by
    simp only [tickPlant]
    rw [hstage]
    exact updateStage_stagePure hq0
  have hs2 : (tickPlant g2 (tickPlant g1 p)).stage =
      stagePure (progressAt (g2 : ℚ) (p.plantedAt : ℚ) (p.traits.speed : ℚ)) := by
    simp only [tickPlant]
    rw [hstage, updateStage_stagePure hq0]
    exact updateStage_stagePure hq12
  rw [hs1, hs2]
  exact stageRank_stagePure_mono hq12

/-- The concrete plant created by buying an OG Kush seed at clock 1 and
planting it, used as a witness input. -/
def plantW : Plant :=
  { id := "p1", name := "OG Kush", stage := Stage.seed, progress := 0,
    genetics := ogKush.genetics, traits := ogKush.traits, plantedAt := 1 }

theorem progress_monotone_and_stage_never_regresses_witness :
    (∀ t1 t2 : ℚ, t1 ≤ t2 →
      progressAt t1 (plantW.plantedAt : ℚ) (plantW.traits.speed : ℚ) ≤
        progressAt t2 (plantW.plantedAt : ℚ) (plantW.traits.speed : ℚ)) ∧
    (∀ t : ℚ, progressAt t (plantW.plantedAt : ℚ) (plantW.traits.speed : ℚ) ≤ 100) ∧
    (1 ≤ plantW.traits.speed ∧ plantW.traits.speed ≤ 10) ∧
    ∀ g1 g2 : ℕ,
      (plantSeed (buySeed (initState 1) ogKush "s1") "s1" "p1").gameTime ≤ g1 → g1 ≤ g2 →
      stageRank (tickPlant g1 plantW).stage ≤
        stageRank (tickPlant g2 (tickPlant g1 plantW)).stage :=
  progress_monotone_and_stage_never_regresses
    (Relation.ReflTransGen.tail
      (Relation.ReflTransGen.single (Step.buy (initState 1) ogKush (by decide) "s1"))
      (Step.plant (buySeed (initState 1) ogKush "s1") "s1" "p1"))
    (by decide)

/-- C7: selling a harvested item credits `yield * potency * 10` per
unit of quantity when the item is researched and a flat 50 per unit
otherwise, then removes the item from the buds list. -/
theorem sellBuds_price_spec (s : GameState) (itemId : String) (item : BudItem)
    (hfind : s.buds.find? (fun i => i.id == itemId) = some item) :
    (sellBuds s itemId).gameStats.money =
      s.gameStats.money +
        (if item.isResearched then (item.traits.yield : Int) * item.traits.potency * 10 else 50) *
          item.quantity ∧
    ∀ i ∈ (sellBuds s itemId).buds, i.id ≠ itemId := by
  unfold sellBuds
  simp only [hfind]
  refine ⟨trivial, ?_⟩
  intro i hi
  simp only [List.mem_filter, bne_iff_ne, ne_eq, decide_not] at hi
  simpa using hi.2

/-- A researched bud item with yield 8, potency 9, quantity 3, and an
otherwise-identical unresearched one, used as witness inputs. -/
def budR : BudItem :=
  { id := "b1", name := "Test", quantity := 3,
    genetics := { yield := "AA", speed := "BB", potency := "CC" },
    traits := { yield := 8, speed := 5, potency := 9 },
    isResearched := true, harvestedAt := 1 }

def budU : BudItem :=
  { id := "b1", name := "Test", quantity := 3,
    genetics := { yield := "AA", speed := "BB", potency := "CC" },
    traits := { yield := 8, speed := 5, potency := 9 },
    isResearched := false, harvestedAt := 1 }

def stateR : GameState :=
  { plants := [], buds := [budR], seeds := [], gameStats := initialStats, gameTime := 1 }

def stateU : GameState :=
  { plants := [], buds := [budU], seeds := [], gameStats := initialStats, gameTime := 1 }

theorem sellBuds_price_spec_witness :
    (sellBuds stateR "b1").gameStats.money = 1000 + 2160 ∧
    (sellBuds stateU "b1").gameStats.money = 1000 + 150 := by
  have hr := sellBuds_price_spec stateR "b1" budR (by decide)
  have hu := sellBuds_price_spec stateU "b1" budU (by decide)
  exact ⟨by rw [hr.1]; decide, by rw [hu.1]; decide⟩

/-- C8: every priced or entity-referencing player action leaves the
whole state unchanged when the balance is insufficient or the
referenced plant/seed/item is absent or invalid — in particular,
harvesting a plant whose stage is not `harvest` is a complete no-op —
and otherwise all effects are applied by the single state-returning
function. -/
theorem guarded_actions_reject_without_change (s : GameState) :
    (∀ strain newId, s.gameStats.money < (strain.price : Int) → buySeed s strain newId = s) ∧
    (∀ seedId newId, s.seeds.find? (fun d => d.id == seedId) = none →
      plantSeed s seedId newId = s) ∧
    (∀ seedId newId seed, s.seeds.find? (fun d => d.id == seedId) = some seed →
      seed.quantity < 1 → plantSeed s seedId newId = s) ∧
    (∀ plantId newId, s.plants.find? (fun p => p.id == plantId) = none →
      harvestPlant s plantId newId = s) ∧
    (∀ plantId newId plant, s.plants.find? (fun p => p.id == plantId) = some plant →
      plant.stage ≠ Stage.harvest → harvestPlant s plantId newId = s) ∧
    (∀ itemId, s.buds.find? (fun i => i.id == itemId) = none → sellBuds s itemId = s) ∧
    (∀ itemId newId, s.buds.find? (fun i => i.id == itemId) = none →
      convertBudsToSeeds s itemId newId = s) ∧
    (∀ itemId newId, s.gameStats.money < 100 → convertBudsToSeeds s itemId newId = s) ∧
    (∀ itemId lab, s.buds.find? (fun i => i.id == itemId) = none →
      researchBuds s itemId lab = s) ∧
    (∀ itemId lab item, s.buds.find? (fun i => i.id == itemId) = some item →
      item.isResearched = true → researchBuds s itemId lab = s) ∧
    (∀ itemId lab item, s.buds.find? (fun i => i.id == itemId) = some item →
      s.gameStats.money < researchCost lab → researchBuds s itemId lab = s) ∧
    (∀ sel2 r newId, crossbreedSeeds s none sel2 r newId = s) ∧
    (∀ sel1 r newId, crossbreedSeeds s sel1 none r newId = s) ∧
    (∀ a b r newId, a.quantity < 1 ∨ b.quantity < 1 →
      crossbreedSeeds s (some a) (some b) r newId = s) := by
  refine ⟨?_, ?_, ?_, ?_, ?_, ?_, ?_, ?_, ?_, ?_, ?_, ?_, ?_, ?_⟩
  · intro strain newId h
    unfold buySeed
    rw [if_pos h]
  · intro seedId newId h
    unfold plantSeed
    simp only [h]
  · intro seedId newId seed h hq
    unfold plantSeed
    simp only [h]
    rw [if_pos hq]
  · intro plantId newId h
    unfold harvestPlant
    simp only [h]
  · intro plantId newId plant h hstage
    unfold harvestPlant
    simp only [h]
    rw [if_pos hstage]
  · intro itemId h
    unfold sellBuds
    simp only [h]
  · intro itemId newId h
    unfold convertBudsToSeeds
    simp only [h]
  · intro itemId newId h
    unfold convertBudsToSeeds
    split
    · rfl
    · rw [if_pos h]
  · intro itemId lab h
    unfold researchBuds
    simp only [h]
  · intro itemId lab item h hres
    unfold researchBuds
    simp only [h]
    rw [if_pos hres]
  · intro itemId lab item h hm
    unfold researchBuds
    simp only [h]
    split_ifs <;> rfl
  · intro sel2 r newId
    cases sel2 <;> rfl
  · intro sel1 r newId
    cases sel1 <;> rfl
  · intro a b r newId h
    simp only [crossbreedSeeds]
    rw [if_pos h]

/-- A non-harvestable plant used as a witness input. -/
def plantPoor : Plant :=
  { id := "p1", name := "X", stage := Stage.seed, progress := 0,
    genetics := { yield := "Aa", speed := "BB", potency := "CC" },
    traits := { yield := 6, speed := 9, potency := 9 }, plantedAt := 1 }

/-- A state with an empty balance, one non-harvestable plant and one
unresearched bud, used as a witness input for the rejection guards. -/
def statePoor : GameState :=
  { plants := [plantPoor], buds := [budU], seeds := [],
    gameStats := { initialStats with money := 0 }, gameTime := 1 }

theorem guarded_actions_reject_without_change_witness :
    buySeed statePoor ogKush "x" = statePoor ∧
    harvestPlant statePoor "p1" "y" = statePoor ∧
    convertBudsToSeeds statePoor "b1" "z" = statePoor ∧
    plantSeed statePoor "nosuch" "w" = statePoor ∧
    researchBuds statePoor "b1" LabType.cheap = statePoor := by
  obtain ⟨hbuy, hplantn, hplantq, hharvn, hharvs, hselln, hconvn, hconvm, hresn, hress, hresm,
    hcr1, hcr2, hcrq⟩ := guarded_actions_reject_without_change statePoor
  exact ⟨hbuy ogKush "x" (by decide), hharvs "p1" "y" plantPoor (by decide) (by decide),
    hconvm "b1" "z" (by decide), hplantn "nosuch" "w" (by decide),
    hresm "b1" LabType.cheap budU (by decide) (by decide)⟩

/-! ### Stack-quantity bookkeeping for the crossbreeding claims -/

/-- Total quantity held by the stacks with the given id. -/
def qtyOf (l : List SeedItem) (i : String) : ℕ :=
  ((l.filter (fun d => d.id == i)).map SeedItem.quantity).sum

theorem qtyOf_nil (i : String) : qtyOf [] i = 0 := rfl

theorem qtyOf_cons (x : SeedItem) (xs : List SeedItem) (i : String) :
    qtyOf (x :: xs) i = (if x.id = i then x.quantity else 0) + qtyOf xs i := by
  by_cases h : x.id = i
  · simp [qtyOf, List.filter_cons, h]
  · simp [qtyOf, List.filter_cons, h]

theorem qtyOf_append (l1 l2 : List SeedItem) (i : String) :
    qtyOf (l1 ++ l2) i = qtyOf l1 i + qtyOf l2 i := by
  simp [qtyOf, List.filter_append]

/-- Computing `qtyOf` of a decrement-and-drop-zeros construction:
zero-quantity entries contribute nothing to the sum, so the filter can
be discarded. -/
theorem qtyOf_consume (f : SeedItem → SeedItem) (hid : ∀ d, (f d).id = d.id)
    (i : String) (l : List SeedItem) :
    qtyOf ((l.map f).filter (fun d => 0 < d.quantity)) i =
      ((l.filter (fun d => d.id == i)).map (fun d => (f d).quantity)).sum := by
  induction l with
  | nil => simp [qtyOf]
  | cons d l ih =>
    by_cases hi : d.id = i
    · by_cases hq : 0 < (f d).quantity
      · rw [List.map_cons, List.filter_cons_of_pos (by simpa using hq), qtyOf_cons,
          List.filter_cons_of_pos (by simpa using hi), List.map_cons, List.sum_cons,
          hid, if_pos hi, ih]
      · have hq0 : (f d).quantity = 0 := by omega
        rw [List.map_cons, List.filter_cons_of_neg (by simpa using hq),
          List.filter_cons_of_pos (by simpa using hi), List.map_cons, List.sum_cons,
          hq0, ih, Nat.zero_add]
    · by_cases hq : 0 < (f d).quantity
      · rw [List.map_cons, List.filter_cons_of_pos (by simpa using hq), qtyOf_cons,
          hid, if_neg hi, List.filter_cons_of_neg (by simpa using hi), ih, Nat.zero_add]
      · rw [List.map_cons, List.filter_cons_of_neg (by simpa using hq),
          List.filter_cons_of_neg (by simpa using hi), ih]

/-- With pairwise-distinct ids, filtering by a member's id keeps
exactly that member. -/
theorem filter_id_eq_single {l : List SeedItem} (hnd : (l.map SeedItem.id).Nodup)
    {a : SeedItem} (ha : a ∈ l) : l.filter (fun d => d.id == a.id) = [a] := by
  induction l with
  | nil => cases ha
  | cons b l ih =>
    simp only [List.map_cons, List.nodup_cons, List.mem_map] at hnd
    obtain ⟨hbnot, hnd2⟩ := hnd
    rcases List.mem_cons.mp ha with rfl | ha2
    · rw [List.filter_cons_of_pos (by simp)]
      have hrest : l.filter (fun d => d.id == a.id) = [] := by
        rw [List.filter_eq_nil_iff]
        intro x hx hxa
        exact hbnot ⟨x, hx, by simpa using hxa.symm⟩
      rw [hrest]
    · have hbne : b.id ≠ a.id := by
        intro he
        exact hbnot ⟨a, ha2, he.symm⟩
      rw [List.filter_cons_of_neg (by simpa using hbne)]
      exact ih hnd2 ha2

/-- The id of a decremented stack is unchanged. -/
theorem consume_id (c : SeedItem → Prop) [DecidablePred c] (d : SeedItem) :
    (if c d then ({ d with quantity := d.quantity - 1 } : SeedItem) else d).id = d.id := by
  split_ifs <;> rfl

/-- `qtyOf` at the id of a member hit by the decrement condition. -/
theorem qtyOf_consumed_at {l : List SeedItem} (hnd : (l.map SeedItem.id).Nodup)
    {a : SeedItem} (ha : a ∈ l) (c : SeedItem → Prop) [DecidablePred c] (hca : c a) :
    qtyOf ((l.map (fun d =>
      if c d then { d with quantity := d.quantity - 1 } else d)).filter
        (fun d => 0 < d.quantity)) a.id = a.quantity - 1 := by
  rw [qtyOf_consume _ (consume_id c) a.id l, filter_id_eq_single hnd ha]
  simp [hca]

/-- A decremented-and-filtered list keeps no stack with the id of a
condition-hit member whose quantity was 1. -/
theorem consumed_no_id {l : List SeedItem} (hnd : (l.map SeedItem.id).Nodup)
    {a : SeedItem} (ha : a ∈ l) (c : SeedItem → Prop) [DecidablePred c] (hca : c a)
    (hq1 : a.quantity = 1) :
    ∀ d ∈ (l.map (fun d =>
      if c d then { d with quantity := d.quantity - 1 } else d)).filter
        (fun d => 0 < d.quantity), d.id ≠ a.id := by
  intro d hd
  simp only [List.mem_filter, List.mem_map, decide_eq_true_eq] at hd
  obtain ⟨⟨e, he, rfl⟩, hpos⟩ := hd
  intro heq
  rw [consume_id] at heq
  have hea : e = a := List.inj_on_of_nodup_map hnd he ha heq
  subst hea
  rw [if_pos hca] at hpos
  simp only [hq1] at hpos
  exact absurd hpos (by norm_num)

/-- Filtering the whole post-crossbreed seed list by the fresh id keeps
exactly the new hybrid seed. -/
theorem consumed_filter_newId {l : List SeedItem} (c : SeedItem → Prop) [DecidablePred c]
    (newSeed : SeedItem) (hnew : newSeed.id ∉ l.map SeedItem.id) :
    (((l.map (fun d =>
      if c d then { d with quantity := d.quantity - 1 } else d)).filter
        (fun d => 0 < d.quantity)) ++ [newSeed]).filter
          (fun d => d.id == newSeed.id) = [newSeed] := by
  rw [List.filter_append]
  have h1 : ((l.map (fun d =>
      if c d then { d with quantity := d.quantity - 1 } else d)).filter
        (fun d => 0 < d.quantity)).filter (fun d => d.id == newSeed.id) = [] := by
    rw [List.filter_eq_nil_iff]
    intro x hx hxn
    simp only [List.mem_filter, List.mem_map] at hx
    obtain ⟨⟨e, he, rfl⟩, _⟩ := hx
    rw [consume_id] at hxn
    exact hnew (by simpa using (List.mem_map.mpr ⟨e, he, (by simpa using hxn)⟩))
  rw [h1]
  simp

/-- C4: crossbreeding two distinct seed stacks of quantity ≥ 1
decrements both parent stacks by 1 (removing a stack that reaches 0),
inserts exactly one new seed unit whose genetics-visibility flag is
unknown regardless of the parents' flags, and increments the
crossbreeding-attempt and experiment counters by 1 each. -/
theorem crossbreed_two_distinct_stacks (s : GameState) (a b : SeedItem) (r : CrossRand)
    (newId : String) (ha : a ∈ s.seeds) (hb : b ∈ s.seeds) (_hab : a.id ≠ b.id)
    (hqa : 1 ≤ a.quantity) (hqb : 1 ≤ b.quantity)
    (hnd : (s.seeds.map SeedItem.id).Nodup)
    (hnew : newId ∉ s.seeds.map SeedItem.id) :
    qtyOf (crossbreedSeeds s (some a) (some b) r newId).seeds a.id = a.quantity - 1 ∧
    qtyOf (crossbreedSeeds s (some a) (some b) r newId).seeds b.id = b.quantity - 1 ∧
    (∃ h, (crossbreedSeeds s (some a) (some b) r newId).seeds.filter
        (fun d => d.id == newId) = [h] ∧ h.isKnownGenetics = false ∧ h.quantity = 1) ∧
    (a.quantity = 1 →
      ∀ d ∈ (crossbreedSeeds s (some a) (some b) r newId).seeds, d.id ≠ a.id) ∧
    (b.quantity = 1 →
      ∀ d ∈ (crossbreedSeeds s (some a) (some b) r newId).seeds, d.id ≠ b.id) ∧
    (crossbreedSeeds s (some a) (some b) r newId).gameStats.crossbreedingAttempts =
      s.gameStats.crossbreedingAttempts + 1 ∧
    (crossbreedSeeds s (some a) (some b) r newId).gameStats.experimentsCount =
      s.gameStats.experimentsCount + 1 := by
  have hguard : ¬(a.quantity < 1 ∨ b.quantity < 1) := by omega
  have hha : a.id ∈ s.seeds.map SeedItem.id := List.mem_map.mpr ⟨a, ha, rfl⟩
  have hhb : b.id ∈ s.seeds.map SeedItem.id := List.mem_map.mpr ⟨b, hb, rfl⟩
  have hna : newId ≠ a.id := fun he => hnew (he ▸ hha)
  have hnb : newId ≠ b.id := fun he => hnew (he ▸ hhb)
  simp only [crossbreedSeeds, if_neg hguard]
  refine ⟨?_, ?_, ?_, ?_, ?_, trivial, trivial⟩
  · rw [qtyOf_append,
      qtyOf_consumed_at hnd ha (fun d => d.id = a.id ∨ d.id = b.id) (Or.inl rfl)]
    simp [qtyOf_cons, qtyOf_nil, hna]
  · rw [qtyOf_append,
      qtyOf_consumed_at hnd hb (fun d => d.id = a.id ∨ d.id = b.id) (Or.inr rfl)]
    simp [qtyOf_cons, qtyOf_nil, hnb]
  · refine ⟨{ id := newId, name := generateHybridName a.name b.name, quantity := 1,
              genetics := hybridGenetics a.genetics b.genetics r,
              traits := calculateTraits (hybridGenetics a.genetics b.genetics r) r.rolls,
              isKnownGenetics := false, createdAt := s.gameTime }, ?_, rfl, rfl⟩
    exact consumed_filter_newId (fun d => d.id = a.id ∨ d.id = b.id)
      { id := newId, name := generateHybridName a.name b.name, quantity := 1,
        genetics := hybridGenetics a.genetics b.genetics r,
        traits := calculateTraits (hybridGenetics a.genetics b.genetics r) r.rolls,
        isKnownGenetics := false, createdAt := s.gameTime } hnew
  · intro h1 d hd
    rcases List.mem_append.mp hd with hd2 | hd2
    · exact consumed_no_id hnd ha (fun d => d.id = a.id ∨ d.id = b.id) (Or.inl rfl) h1 d hd2
    · rw [List.mem_singleton.mp hd2]
      exact hna
  · intro h1 d hd
    rcases List.mem_append.mp hd with hd2 | hd2
    · exact consumed_no_id hnd hb (fun d => d.id = a.id ∨ d.id = b.id) (Or.inr rfl) h1 d hd2
    · rw [List.mem_singleton.mp hd2]
      exact hnb

/-- Concrete parent seed stacks of quantity 1 used as witness inputs. -/
def seedA : SeedItem :=
  { id := "sa", name := "OG Kush", quantity := 1, genetics := ogKush.genetics,
    traits := ogKush.traits, isKnownGenetics := true, createdAt := 1 }

def seedB : SeedItem :=
  { id := "sb", name := "White Widow", quantity := 1, genetics := whiteWidow.genetics,
    traits := whiteWidow.traits, isKnownGenetics := true, createdAt := 1 }

def stateCross : GameState :=
  { plants := [], buds := [], seeds := [seedA, seedB],
    gameStats := initialStats, gameTime := 1 }

/-- A concrete draw: yield from parent 2, speed and potency from
parent 1, no mutations, trait rolls (2,0,2). -/
def randW : CrossRand :=
  { pickYield := false, pickSpeed := true, pickPotency := true,
    mutYield := false, mutSpeed := false, mutPotency := false,
    mutYieldIdx := 0, mutSpeedIdx := 0, mutPotencyIdx := 0,
    rolls := { ry := 2, rs := 0, rp := 2 } }

theorem crossbreed_two_distinct_stacks_witness :
    qtyOf (crossbreedSeeds stateCross (some seedA) (some seedB) randW "h1").seeds seedA.id =
      seedA.quantity - 1 ∧
    qtyOf (crossbreedSeeds stateCross (some seedA) (some seedB) randW "h1").seeds seedB.id =
      seedB.quantity - 1 ∧
    (∃ h, (crossbreedSeeds stateCross (some seedA) (some seedB) randW "h1").seeds.filter
        (fun d => d.id == "h1") = [h] ∧ h.isKnownGenetics = false ∧ h.quantity = 1) ∧
    (seedA.quantity = 1 →
      ∀ d ∈ (crossbreedSeeds stateCross (some seedA) (some seedB) randW "h1").seeds,
        d.id ≠ seedA.id) ∧
    (seedB.quantity = 1 →
      ∀ d ∈ (crossbreedSeeds stateCross (some seedA) (some seedB) randW "h1").seeds,
        d.id ≠ seedB.id) ∧
    (crossbreedSeeds stateCross (some seedA) (some seedB) randW "h1").gameStats.crossbreedingAttempts =
      stateCross.gameStats.crossbreedingAttempts + 1 ∧
    (crossbreedSeeds stateCross (some seedA) (some seedB) randW "h1").gameStats.experimentsCount =
      stateCross.gameStats.experimentsCount + 1 :=
  crossbreed_two_distinct_stacks stateCross seedA seedB randW "h1"
    (by decide) (by decide) (by decide) (by decide) (by decide) (by decide) (by decide)

/-- C9: invoking the crossbreed operation with the same seed stack as
both parents (quantity ≥ 1) is not rejected: the stack is decremented
by 1 in total (not 2), one new unknown-genetics seed is still added,
and both counters still increment. -/
theorem crossbreed_same_stack_not_rejected (s : GameState) (a : SeedItem) (r : CrossRand)
    (newId : String) (ha : a ∈ s.seeds) (hqa : 1 ≤ a.quantity)
    (hnd : (s.seeds.map SeedItem.id).Nodup)
    (hnew : newId ∉ s.seeds.map SeedItem.id) :
    qtyOf (crossbreedSeeds s (some a) (some a) r newId).seeds a.id = a.quantity - 1 ∧
    (∃ h, (crossbreedSeeds s (some a) (some a) r newId).seeds.filter
        (fun d => d.id == newId) = [h] ∧ h.isKnownGenetics = false ∧ h.quantity = 1) ∧
    (crossbreedSeeds s (some a) (some a) r newId).gameStats.crossbreedingAttempts =
      s.gameStats.crossbreedingAttempts + 1 ∧
    (crossbreedSeeds s (some a) (some a) r newId).gameStats.experimentsCount =
      s.gameStats.experimentsCount + 1 := by
  have hguard : ¬(a.quantity < 1 ∨ a.quantity < 1) := by omega
  have hha : a.id ∈ s.seeds.map SeedItem.id := List.mem_map.mpr ⟨a, ha, rfl⟩
  have hna : newId ≠ a.id := fun he => hnew (he ▸ hha)
  simp only [crossbreedSeeds, if_neg hguard]
  refine ⟨?_, ?_, trivial, trivial⟩
  · rw [qtyOf_append,
      qtyOf_consumed_at hnd ha (fun d => d.id = a.id ∨ d.id = a.id) (Or.inl rfl)]
    simp [qtyOf_cons, qtyOf_nil, hna]
  · refine ⟨{ id := newId, name := generateHybridName a.name a.name, quantity := 1,
              genetics := hybridGenetics a.genetics a.genetics r,
              traits := calculateTraits (hybridGenetics a.genetics a.genetics r) r.rolls,
              isKnownGenetics := false, createdAt := s.gameTime }, ?_, rfl, rfl⟩
    exact consumed_filter_newId (fun d => d.id = a.id ∨ d.id = a.id)
      { id := newId, name := generateHybridName a.name a.name, quantity := 1,
        genetics := hybridGenetics a.genetics a.genetics r,
        traits := calculateTraits (hybridGenetics a.genetics a.genetics r) r.rolls,
        isKnownGenetics := false, createdAt := s.gameTime } hnew

theorem crossbreed_same_stack_not_rejected_witness :
    qtyOf (crossbreedSeeds stateCross (some seedA) (some seedA) randW "h2").seeds seedA.id =
      seedA.quantity - 1 ∧
    (∃ h, (crossbreedSeeds stateCross (some seedA) (some seedA) randW "h2").seeds.filter
        (fun d => d.id == "h2") = [h] ∧ h.isKnownGenetics = false ∧ h.quantity = 1) ∧
    (crossbreedSeeds stateCross (some seedA) (some seedA) randW "h2").gameStats.crossbreedingAttempts =
      stateCross.gameStats.crossbreedingAttempts + 1 ∧
    (crossbreedSeeds stateCross (some seedA) (some seedA) randW "h2").gameStats.experimentsCount =
      stateCross.gameStats.experimentsCount + 1 :=
  crossbreed_same_stack_not_rejected stateCross seedA randW "h2"
    (by decide) (by decide) (by decide) (by decide)

/-- C2 (divergence witness): a genotype that occurs in the game —
offspring of the catalog strains OG Kush and White Widow, both of which
carry the token `AA` at the potency locus — receives a potency sampled
by `calculateTraits` in the recessive band [2,4] (here 4), while the
declared range of the dominant token `AA` is [8,10]: the catalog uses
A/B-letter tokens at the speed and potency loci, but `calculateTraits`
only recognises `BB/Bb` and `CC/Cc` there. -/
theorem crossbreed_offspring_potency_outside_declared_range :
    ∃ d ∈ (crossbreedSeeds stateCross (some seedA) (some seedB) randW "h1").seeds,
      d.genetics.potency = "AA" ∧ getTraitRange d.genetics.potency = (8, 10) ∧
      d.traits.potency = 4 ∧ ¬(8 ≤ d.traits.potency ∧ d.traits.potency ≤ 10) := by
  decide
